import Mathlib

/-!
Shallow embedding of the spirant parameter store
(`spirant-parameter-values-rs/src/parameter_values/`), the display task's
snapshot/reconcile steps (`spirant-oled-display-rs/src/display_task.rs`)
and the encoder task's delta loop (`spirant-hw-interface-rs/src/main.rs`).

Rust `i32` values are modelled as `Int` (no arithmetic in the source can
overflow in the reachable value range `[0, 127]`), `usize` indices as `Nat`,
and the fixed-size arrays `[Page; N_PAGES]` / `[ParameterSlot; PARAMS_PER_PAGE]`
as `List`s whose lengths are maintained as an invariant.  Methods taking
`&mut self` are modelled as functions returning the new store (paired with
the `Result` value where the source returns one); an early error return
leaves the store component equal to the input, mirroring the untouched
`&mut self`.  Rust indexing `pages[i]` / `params[i]` (which would panic out
of range, a situation unreachable from `ParameterValues::new()`) is
totalised with `List.getD` and a null default.  The fixed-size result
array plus count returned by the two `take_*_changes` methods is modelled
as the list of its first `count` entries, in the same traversal order.
-/

namespace Spirant

/-- `PARAMS_PER_PAGE` from `parameter_values/mod.rs`. -/
def PARAMS_PER_PAGE : Nat := 4

/-- `N_PAGES` from `parameter_values/mod.rs`. -/
def N_PAGES : Nat := 4

/-- `TOTAL_SLOTS` from `parameter_values/values.rs`. -/
def TOTAL_SLOTS : Nat := N_PAGES * PARAMS_PER_PAGE

/-- `Parameter` from `parameter_values/parameter.rs`. -/
structure Parameter where
  value : Int
  min_value : Int
  max_value : Int
  changed_oled : Bool
  changed_i2c : Bool
  deriving DecidableEq

/-- `Parameter::default()` from `parameter_values/parameter.rs`. -/
def Parameter.default : Parameter :=
  { value := 0, min_value := 0, max_value := 127,
    changed_oled := false, changed_i2c := false }

/-- Rust `i32::clamp(self, lo, hi)` for `lo ≤ hi` (the only way the source
calls it: every parameter ever constructed has `min_value = 0`,
`max_value = 127`). -/
def rustClamp (v lo hi : Int) : Int :=
  if v < lo then lo else if v > hi then hi else v

/-- `Parameter::set_value` from `parameter_values/parameter.rs`: clamp and
set **both** change flags. -/
def Parameter.set_value (p : Parameter) (v : Int) : Parameter :=
  { p with value := rustClamp v p.min_value p.max_value,
           changed_oled := true, changed_i2c := true }

/-- `Parameter::set_value_from_i2c` from `parameter_values/parameter.rs`:
clamp and set only `changed_oled`; `changed_i2c` is deliberately not
written. -/
def Parameter.set_value_from_i2c (p : Parameter) (v : Int) : Parameter :=
  { p with value := rustClamp v p.min_value p.max_value,
           changed_oled := true }

/-- `ParameterSlot` from `parameter_values/parameter.rs`. -/
inductive ParameterSlot where
  | Active (param : Parameter)
  | Null
  deriving DecidableEq

/-- `ParameterSlot::is_active` from `parameter_values/parameter.rs`. -/
def ParameterSlot.is_active : ParameterSlot → Bool
  | .Active _ => true
  | .Null => false

/-- `Page` from `parameter_values/page.rs`. -/
structure Page where
  params : List ParameterSlot
  deriving DecidableEq

/-- `Page::default()` from `parameter_values/page.rs`: all slots null. -/
def Page.default : Page :=
  { params := List.replicate PARAMS_PER_PAGE ParameterSlot.Null }

/-- `ParameterError` from `parameter_values/error.rs`. -/
inductive ParameterError where
  | InvalidPageIndex
  | InvalidEncoderIndex
  | NullSlot
  | InvalidGlobalIndex
  deriving DecidableEq

/-- `ParameterChange` from `parameter_values/values.rs`. -/
structure ParameterChange where
  name : String
  value : Int
  page : Nat
  encoder : Nat
  deriving DecidableEq

/-- `PARAM_NAMES` from `parameter_values/mod.rs`: the static layout table. -/
def PARAM_NAMES : List (List (Option String)) :=
  [ [some "Cutoff", some "Resonance", some "Filter Type", some "Filter Env"],
    [some "Attack", some "Decay", some "Sustain", some "Release"],
    [some "LFO Rate", some "LFO Depth", some "LFO Shape", none],
    [some "Delay Time", some "Reverb", none, none] ]

/-- `PARAM_NAMES[page][enc]`, totalised with `none` out of range. -/
def nameAt (page enc : Nat) : Option String :=
  (PARAM_NAMES.getD page []).getD enc none

/-- `ParameterValues` from `parameter_values/values.rs`. -/
structure ParameterValues where
  pages : List Page
  current_page : Nat
  deriving DecidableEq

/-- `ParameterValues::new()` from `parameter_values/values.rs`: every
`Some` entry of `PARAM_NAMES` becomes `Active(Parameter::default())`,
every `None` becomes `Null`; `current_page` starts at 0. -/
def ParameterValues.new : ParameterValues :=
  { pages := PARAM_NAMES.map (fun row =>
      { params := row.map (fun entry =>
          match entry with
          | some _ => ParameterSlot.Active Parameter.default
          | none => ParameterSlot.Null) }),
    current_page := 0 }

/-- The slot at `(page p, slot i)`, totalised with `Null` out of range
(specification-side accessor used to state the theorems). -/
def ParameterValues.slotAt (pv : ParameterValues) (p i : Nat) : ParameterSlot :=
  (pv.pages.getD p Page.default).params.getD i ParameterSlot.Null

/-- `ParameterValues::set_page` from `parameter_values/values.rs`. -/
def ParameterValues.set_page (pv : ParameterValues) (page : Nat) :
    ParameterValues × Except ParameterError Unit :=
  if page ≥ N_PAGES then (pv, .error .InvalidPageIndex)
  else ({ pv with current_page := page }, .ok ())

/-- The per-slot body of the `set_active_page` loop: mark an active slot's
`changed_oled`, leave a null slot alone. -/
def markOled : ParameterSlot → ParameterSlot
  | .Active p => .Active { p with changed_oled := true }
  | .Null => .Null

/-- `ParameterValues::set_active_page` from `parameter_values/values.rs`. -/
def ParameterValues.set_active_page (pv : ParameterValues) (page : Nat) :
    ParameterValues × Except ParameterError Unit :=
  if page ≥ N_PAGES then (pv, .error .InvalidPageIndex)
  else
    let pg := pv.pages.getD page Page.default
    ({ pages := pv.pages.set page { params := pg.params.map markOled },
       current_page := page }, .ok ())

/-- `ParameterValues::update_from_encoder` from `parameter_values/values.rs`:
silent no-op when the index is out of bounds or the slot is null. -/
def ParameterValues.update_from_encoder (pv : ParameterValues)
    (encoder_idx : Nat) (delta : Int) : ParameterValues :=
  if encoder_idx ≥ PARAMS_PER_PAGE then pv
  else
    let pg := pv.pages.getD pv.current_page Page.default
    match pg.params.getD encoder_idx ParameterSlot.Null with
    | .Active param =>
        let pg2 : Page :=
          { params := pg.params.set encoder_idx
              (.Active (param.set_value (param.value + delta))) }
        { pv with pages := pv.pages.set pv.current_page pg2 }
    | .Null => pv

/-- `ParameterValues::global_to_page_encoder` from
`parameter_values/values.rs` (it ignores `&self`). -/
def ParameterValues.global_to_page_encoder (global_idx : Nat) :
    Except ParameterError (Nat × Nat) :=
  if global_idx ≥ TOTAL_SLOTS then .error .InvalidGlobalIndex
  else .ok (global_idx / PARAMS_PER_PAGE, global_idx % PARAMS_PER_PAGE)

/-- `ParameterValues::update_from_i2c` from `parameter_values/values.rs`. -/
def ParameterValues.update_from_i2c (pv : ParameterValues)
    (global_idx : Nat) (value : Int) :
    ParameterValues × Except ParameterError Unit :=
  match ParameterValues.global_to_page_encoder global_idx with
  | .error e => (pv, .error e)
  | .ok (page, enc) =>
      let pg := pv.pages.getD page Page.default
      match pg.params.getD enc ParameterSlot.Null with
      | .Active param =>
          let pg2 : Page :=
            { params := pg.params.set enc
                (.Active (param.set_value_from_i2c value)) }
          ({ pv with pages := pv.pages.set page pg2 }, .ok ())
      | .Null => (pv, .error .NullSlot)

/-- Inner loop of `ParameterValues::take_oled_changes` over one page's
slots: collect entries with `changed_oled` set (name looked up in
`PARAM_NAMES`; the source's `.expect` is totalised with `""`, a branch the
layout invariant proves unreachable) and clear exactly those flags. -/
def takeOledSlots : List ParameterSlot → Nat → Nat →
    List ParameterSlot × List ParameterChange
  | [], _, _ => ([], [])
  | slot :: rest, pageIdx, encIdx =>
    let tail := takeOledSlots rest pageIdx (encIdx + 1)
    match slot with
    | .Active param =>
        if param.changed_oled then
          (.Active { param with changed_oled := false } :: tail.1,
           { name := (nameAt pageIdx encIdx).getD "", value := param.value,
             page := pageIdx, encoder := encIdx } :: tail.2)
        else (.Active param :: tail.1, tail.2)
    | .Null => (.Null :: tail.1, tail.2)

/-- Outer loop of `ParameterValues::take_oled_changes` over pages. -/
def takeOledPages : List Page → Nat → List Page × List ParameterChange
  | [], _ => ([], [])
  | pg :: rest, pageIdx =>
    let here := takeOledSlots pg.params pageIdx 0
    let tail := takeOledPages rest (pageIdx + 1)
    ({ params := here.1 } :: tail.1, here.2 ++ tail.2)

/-- `ParameterValues::take_oled_changes` from `parameter_values/values.rs`. -/
def ParameterValues.take_oled_changes (pv : ParameterValues) :
    ParameterValues × List ParameterChange :=
  let r := takeOledPages pv.pages 0
  ({ pv with pages := r.1 }, r.2)

/-- Inner loop of `ParameterValues::take_i2c_changes` over one page's
slots: same traversal as the OLED drain but on `changed_i2c`. -/
def takeI2cSlots : List ParameterSlot → Nat → Nat →
    List ParameterSlot × List ParameterChange
  | [], _, _ => ([], [])
  | slot :: rest, pageIdx, encIdx =>
    let tail := takeI2cSlots rest pageIdx (encIdx + 1)
    match slot with
    | .Active param =>
        if param.changed_i2c then
          (.Active { param with changed_i2c := false } :: tail.1,
           { name := (nameAt pageIdx encIdx).getD "", value := param.value,
             page := pageIdx, encoder := encIdx } :: tail.2)
        else (.Active param :: tail.1, tail.2)
    | .Null => (.Null :: tail.1, tail.2)

/-- Outer loop of `ParameterValues::take_i2c_changes` over pages. -/
def takeI2cPages : List Page → Nat → List Page × List ParameterChange
  | [], _ => ([], [])
  | pg :: rest, pageIdx =>
    let here := takeI2cSlots pg.params pageIdx 0
    let tail := takeI2cPages rest (pageIdx + 1)
    ({ params := here.1 } :: tail.1, here.2 ++ tail.2)

/-- `ParameterValues::take_i2c_changes` from `parameter_values/values.rs`. -/
def ParameterValues.take_i2c_changes (pv : ParameterValues) :
    ParameterValues × List ParameterChange :=
  let r := takeI2cPages pv.pages 0
  ({ pv with pages := r.1 }, r.2)

/-- Step 1 of `display_update_task` (`display_task.rs`): under the lock,
copy each Active slot's `changed_oled` flag on the current page into a
local `[bool; 4]` snapshot (`false` for Null slots). -/
def snapshotFlags (pv : ParameterValues) : List Bool :=
  (List.range PARAMS_PER_PAGE).map (fun i =>
    match (pv.pages.getD pv.current_page Page.default).params.getD i
        ParameterSlot.Null with
    | .Active param => param.changed_oled
    | .Null => false)

/-- Body of the step-6 loop of `display_update_task`: walk the snapshot
flags and the current page's slots in lockstep; where the snapshot flag
`was_changed` is true and the slot is Active, clear `changed_oled`. -/
def clearFlagged : List Bool → List ParameterSlot → List ParameterSlot
  | [], slots => slots
  | _ :: _, [] => []
  | f :: fs, s :: ss =>
    (if f then
       match s with
       | ParameterSlot.Active p => ParameterSlot.Active { p with changed_oled := false }
       | ParameterSlot.Null => ParameterSlot.Null
     else s) :: clearFlagged fs ss

/-- Step 6 of `display_update_task` (`display_task.rs`): re-acquire the
lock, re-read `current_page`, and clear `changed_oled` on exactly the
slots whose snapshot flag was set in step 1. -/
def reconcileOled (pv : ParameterValues) (flags : List Bool) : ParameterValues :=
  let pg := pv.pages.getD pv.current_page Page.default
  { pv with pages := pv.pages.set pv.current_page ({ params := clearFlagged flags pg.params }) }

/-- The store-update loop of `encoder_task` (`spirant-hw-interface-rs/src/main.rs`):
for each encoder index with a non-zero delta, call `update_from_encoder`;
zero deltas are filtered out before they reach the store (the task also
skips the whole loop when every delta is zero, which this fold subsumes). -/
def encoderApplyDeltas (pv : ParameterValues) (deltas : List Int) : ParameterValues :=
  deltas.enum.foldl
    (fun s p => if p.2 ≠ 0 then s.update_from_encoder p.1 p.2 else s) pv

-- ── Specification-side helpers ───────────────────────────────────────

/-- The `changed_oled` flag of the slot at `(p, i)`, `none` for Null. -/
def oledFlagAt (pv : ParameterValues) (p i : Nat) : Option Bool :=
  match pv.slotAt p i with
  | .Active q => some q.changed_oled
  | .Null => none

/-- What `take_oled_changes` does to one slot, per the spec: clear
`changed_oled`, touch nothing else (identity on Null slots and on
parameters whose flag was already clear). -/
def clearOledSlot : ParameterSlot → ParameterSlot
  | .Active q => .Active { q with changed_oled := false }
  | .Null => .Null

/-- What `take_i2c_changes` does to one slot, per the spec: clear
`changed_i2c`, touch nothing else. -/
def clearI2cSlot : ParameterSlot → ParameterSlot
  | .Active q => .Active { q with changed_i2c := false }
  | .Null => .Null

/-- One public store operation (the interface surface named by the
claims). -/
inductive Op where
  | encoder (slot : Nat) (delta : Int)
  | external (g : Nat) (v : Int)
  | setPage (p : Nat)
  | setActivePage (p : Nat)
  | drainOled
  | drainI2c

/-- Apply one public operation to the store, discarding returned errors
and drained change lists (they do not affect the next state). -/
def applyOp (pv : ParameterValues) : Op → ParameterValues
  | .encoder s d => pv.update_from_encoder s d
  | .external g v => (pv.update_from_i2c g v).1
  | .setPage p => (pv.set_page p).1
  | .setActivePage p => (pv.set_active_page p).1
  | .drainOled => pv.take_oled_changes.1
  | .drainI2c => pv.take_i2c_changes.1

/-- Run a sequence of public operations from the freshly constructed
store. -/
def runOps (ops : List Op) : ParameterValues :=
  ops.foldl applyOp ParameterValues.new

/-- States reachable from `ParameterValues::new()` by public operations. -/
def Reachable (pv : ParameterValues) : Prop :=
  ∃ ops, runOps ops = pv

/-- Structural well-formedness: the array dimensions of the Rust store
(`[Page; N_PAGES]`, `[ParameterSlot; PARAMS_PER_PAGE]`) and the page
cursor bound. -/
def Shape (pv : ParameterValues) : Prop :=
  pv.pages.length = N_PAGES ∧ pv.current_page < N_PAGES ∧
    ∀ a, a < N_PAGES → (pv.pages.getD a Page.default).params.length = PARAMS_PER_PAGE

/-- A parameter whose value sits inside its (inclusive) range. -/
def ParamInRange (q : Parameter) : Prop :=
  q.min_value ≤ q.value ∧ q.value ≤ q.max_value

/-- Full store invariant: shape, the layout table correspondence
(slot Active iff `PARAM_NAMES` entry is `Some`) and the clamp range on
every active parameter. -/
def Inv (pv : ParameterValues) : Prop :=
  Shape pv ∧
    (∀ p i, (pv.slotAt p i).is_active = (nameAt p i).isSome) ∧
    (∀ p i q, pv.slotAt p i = ParameterSlot.Active q → ParamInRange q)

instance (pv : ParameterValues) : Decidable (Shape pv) := by
  unfold Shape
  infer_instance

-- ── Generic list access lemmas ───────────────────────────────────────

theorem getD_set_self {α : Type} (l : List α) (n : Nat) (b d : α)
    (h : n < l.length) : (l.set n b).getD n d = b := by
  simp [List.getD, List.getElem?_set_self, h]

theorem getD_set_ne {α : Type} (l : List α) (n m : Nat) (b d : α)
    (h : n ≠ m) : (l.set n b).getD m d = l.getD m d := by
  simp [List.getD, List.getElem?_set_ne h]

theorem getD_map_nullfix (f : ParameterSlot → ParameterSlot)
    (hf : f ParameterSlot.Null = ParameterSlot.Null) :
    ∀ (ps : List ParameterSlot) (i : Nat),
      (ps.map f).getD i ParameterSlot.Null = f (ps.getD i ParameterSlot.Null)
  | [], i => by simp [hf]
  | s :: rest, 0 => by simp
  | s :: rest, i + 1 => by
    simpa using getD_map_nullfix f hf rest i

theorem default_params_getD (i : Nat) :
    Page.default.params.getD i ParameterSlot.Null = ParameterSlot.Null := by
  unfold Page.default
  rcases Nat.lt_or_ge i PARAMS_PER_PAGE with h | h
  · simp [List.getD, List.getElem?_replicate, h]
  · simp [List.getD, List.getElem?_replicate, Nat.not_lt.mpr h]

-- ── Clamp range ──────────────────────────────────────────────────────

theorem rustClamp_range (v lo hi : Int) (h : lo ≤ hi) :
    lo ≤ rustClamp v lo hi ∧ rustClamp v lo hi ≤ hi := by
  unfold rustClamp
  split_ifs <;> omega

-- ── Per-slot simulation relation ─────────────────────────────────────

/-- Relation between a slot before and after one public operation: the
Active/Null variant is preserved, the range bounds are preserved, and a
parameter in range stays in range. -/
def SlotStep (s t : ParameterSlot) : Prop :=
  t.is_active = s.is_active ∧
  ∀ q, t = ParameterSlot.Active q → ∃ q0, s = ParameterSlot.Active q0 ∧
    q.min_value = q0.min_value ∧ q.max_value = q0.max_value ∧
    (ParamInRange q0 → ParamInRange q)

theorem slotStep_refl (s : ParameterSlot) : SlotStep s s := by
  refine ⟨rfl, fun q hq => ⟨q, hq, rfl, rfl, id⟩⟩

theorem slotStep_set_value (q : Parameter) (v : Int) :
    SlotStep (.Active q) (.Active (q.set_value v)) := by
  refine ⟨rfl, fun q' hq' => ⟨q, rfl, ?_, ?_, ?_⟩⟩ <;>
    cases hq' <;> simp [Parameter.set_value]
  intro hr
  have := rustClamp_range v q.min_value q.max_value (le_trans hr.1 hr.2)
  exact ⟨this.1, this.2⟩

theorem slotStep_set_value_from_i2c (q : Parameter) (v : Int) :
    SlotStep (.Active q) (.Active (q.set_value_from_i2c v)) := by
  refine ⟨rfl, fun q' hq' => ⟨q, rfl, ?_, ?_, ?_⟩⟩ <;>
    cases hq' <;> simp [Parameter.set_value_from_i2c]
  intro hr
  have := rustClamp_range v q.min_value q.max_value (le_trans hr.1 hr.2)
  exact ⟨this.1, this.2⟩

theorem slotStep_markOled (s : ParameterSlot) : SlotStep s (markOled s) := by
  cases s with
  | Active q =>
    refine ⟨rfl, fun q' hq' => ⟨q, rfl, ?_, ?_, ?_⟩⟩ <;>
      cases hq' <;> simp [ParamInRange]
  | Null => exact slotStep_refl _

theorem slotStep_clearOled (s : ParameterSlot) : SlotStep s (clearOledSlot s) := by
  cases s with
  | Active q =>
    refine ⟨rfl, fun q' hq' => ⟨q, rfl, ?_, ?_, ?_⟩⟩ <;>
      cases hq' <;> simp [clearOledSlot, ParamInRange]
  | Null => exact slotStep_refl _

theorem slotStep_clearI2c (s : ParameterSlot) : SlotStep s (clearI2cSlot s) := by
  cases s with
  | Active q =>
    refine ⟨rfl, fun q' hq' => ⟨q, rfl, ?_, ?_, ?_⟩⟩ <;>
      cases hq' <;> simp [clearI2cSlot, ParamInRange]
  | Null => exact slotStep_refl _

-- ── Pointwise behaviour of the drain loops ───────────────────────────

theorem getD_oob {α : Type} (l : List α) (n : Nat) (d : α)
    (h : l.length ≤ n) : l.getD n d = d := by
  simp [List.getD, List.getElem?_eq_none h]

theorem takeOledSlots_fst_getD (ps : List ParameterSlot) (pIdx : Nat) :
    ∀ (eIdx b : Nat),
      (takeOledSlots ps pIdx eIdx).1.getD b ParameterSlot.Null =
        clearOledSlot (ps.getD b ParameterSlot.Null) := by
  induction ps with
  | nil => intro e b; simp [takeOledSlots, clearOledSlot]
  | cons s rest ih =>
    intro e b
    cases b with
    | zero =>
      cases s with
      | Active q =>
        cases hq : q.changed_oled
        · cases q
          simp_all [takeOledSlots, clearOledSlot]
        · simp [takeOledSlots, hq, clearOledSlot]
      | Null => simp [takeOledSlots, clearOledSlot]
    | succ b =>
      cases s with
      | Active q =>
        cases hq : q.changed_oled <;>
          simpa [takeOledSlots, hq] using ih (e + 1) b
      | Null => simpa [takeOledSlots] using ih (e + 1) b

theorem takeOledSlots_fst_length (pIdx : Nat) :
    ∀ (ps : List ParameterSlot) (eIdx : Nat),
      (takeOledSlots ps pIdx eIdx).1.length = ps.length
  | [], _ => rfl
  | s :: rest, e => by
    have h := takeOledSlots_fst_length pIdx rest (e + 1)
    cases s with
    | Active q =>
      cases hq : q.changed_oled <;> simp [takeOledSlots, hq, h]
    | Null => simp [takeOledSlots, h]

theorem takeOledPages_fst_length :
    ∀ (pgs : List Page) (pIdx : Nat),
      (takeOledPages pgs pIdx).1.length = pgs.length
  | [], _ => rfl
  | pg :: rest, pIdx => by
    simp [takeOledPages, takeOledPages_fst_length rest (pIdx + 1)]

theorem takeOledPages_getD_params :
    ∀ (pgs : List Page) (pIdx a b : Nat),
      ((takeOledPages pgs pIdx).1.getD a Page.default).params.getD b
          ParameterSlot.Null =
        clearOledSlot ((pgs.getD a Page.default).params.getD b
          ParameterSlot.Null)
  | [], pIdx, a, b => by
    simp only [takeOledPages, List.getD_nil]
    rw [default_params_getD]
    rfl
  | pg :: rest, pIdx, 0, b => by
    simp only [takeOledPages, List.getD_cons_zero]
    exact takeOledSlots_fst_getD pg.params pIdx 0 b
  | pg :: rest, pIdx, a + 1, b => by
    simp only [takeOledPages, List.getD_cons_succ]
    exact takeOledPages_getD_params rest (pIdx + 1) a b

theorem takeOledPages_getD_params_length :
    ∀ (pgs : List Page) (pIdx a : Nat),
      ((takeOledPages pgs pIdx).1.getD a Page.default).params.length =
        (pgs.getD a Page.default).params.length
  | [], _, _ => by simp [takeOledPages]
  | pg :: rest, pIdx, 0 => by
    simp [takeOledPages, takeOledSlots_fst_length]
  | pg :: rest, pIdx, a + 1 => by
    simpa [takeOledPages] using takeOledPages_getD_params_length rest (pIdx + 1) a

theorem take_oled_changes_fst_slotAt (pv : ParameterValues) (p i : Nat) :
    pv.take_oled_changes.1.slotAt p i = clearOledSlot (pv.slotAt p i) := by
  simp only [ParameterValues.take_oled_changes, ParameterValues.slotAt]
  exact takeOledPages_getD_params pv.pages 0 p i

theorem take_oled_changes_fst_current (pv : ParameterValues) :
    pv.take_oled_changes.1.current_page = pv.current_page := rfl

theorem take_oled_changes_fst_pages_length (pv : ParameterValues) :
    pv.take_oled_changes.1.pages.length = pv.pages.length := by
  simp [ParameterValues.take_oled_changes, takeOledPages_fst_length]

theorem takeI2cSlots_fst_getD (ps : List ParameterSlot) (pIdx : Nat) :
    ∀ (eIdx b : Nat),
      (takeI2cSlots ps pIdx eIdx).1.getD b ParameterSlot.Null =
        clearI2cSlot (ps.getD b ParameterSlot.Null) := by
  induction ps with
  | nil => intro e b; simp [takeI2cSlots, clearI2cSlot]
  | cons s rest ih =>
    intro e b
    cases b with
    | zero =>
      cases s with
      | Active q =>
        cases hq : q.changed_i2c
        · cases q
          simp_all [takeI2cSlots, clearI2cSlot]
        · simp [takeI2cSlots, hq, clearI2cSlot]
      | Null => simp [takeI2cSlots, clearI2cSlot]
    | succ b =>
      cases s with
      | Active q =>
        cases hq : q.changed_i2c <;>
          simpa [takeI2cSlots, hq] using ih (e + 1) b
      | Null => simpa [takeI2cSlots] using ih (e + 1) b

theorem takeI2cSlots_fst_length (pIdx : Nat) :
    ∀ (ps : List ParameterSlot) (eIdx : Nat),
      (takeI2cSlots ps pIdx eIdx).1.length = ps.length
  | [], _ => rfl
  | s :: rest, e => by
    have h := takeI2cSlots_fst_length pIdx rest (e + 1)
    cases s with
    | Active q =>
      cases hq : q.changed_i2c <;> simp [takeI2cSlots, hq, h]
    | Null => simp [takeI2cSlots, h]

theorem takeI2cPages_fst_length :
    ∀ (pgs : List Page) (pIdx : Nat),
      (takeI2cPages pgs pIdx).1.length = pgs.length
  | [], _ => rfl
  | pg :: rest, pIdx => by
    simp [takeI2cPages, takeI2cPages_fst_length rest (pIdx + 1)]

theorem takeI2cPages_getD_params :
    ∀ (pgs : List Page) (pIdx a b : Nat),
      ((takeI2cPages pgs pIdx).1.getD a Page.default).params.getD b
          ParameterSlot.Null =
        clearI2cSlot ((pgs.getD a Page.default).params.getD b
          ParameterSlot.Null)
  | [], pIdx, a, b => by
    simp only [takeI2cPages, List.getD_nil]
    rw [default_params_getD]
    rfl
  | pg :: rest, pIdx, 0, b => by
    simp only [takeI2cPages, List.getD_cons_zero]
    exact takeI2cSlots_fst_getD pg.params pIdx 0 b
  | pg :: rest, pIdx, a + 1, b => by
    simp only [takeI2cPages, List.getD_cons_succ]
    exact takeI2cPages_getD_params rest (pIdx + 1) a b

theorem takeI2cPages_getD_params_length :
    ∀ (pgs : List Page) (pIdx a : Nat),
      ((takeI2cPages pgs pIdx).1.getD a Page.default).params.length =
        (pgs.getD a Page.default).params.length
  | [], _, _ => by simp [takeI2cPages]
  | pg :: rest, pIdx, 0 => by
    simp [takeI2cPages, takeI2cSlots_fst_length]
  | pg :: rest, pIdx, a + 1 => by
    simpa [takeI2cPages] using takeI2cPages_getD_params_length rest (pIdx + 1) a

theorem take_i2c_changes_fst_slotAt (pv : ParameterValues) (p i : Nat) :
    pv.take_i2c_changes.1.slotAt p i = clearI2cSlot (pv.slotAt p i) := by
  simp only [ParameterValues.take_i2c_changes, ParameterValues.slotAt]
  exact takeI2cPages_getD_params pv.pages 0 p i

theorem take_i2c_changes_fst_current (pv : ParameterValues) :
    pv.take_i2c_changes.1.current_page = pv.current_page := rfl

theorem take_i2c_changes_fst_pages_length (pv : ParameterValues) :
    pv.take_i2c_changes.1.pages.length = pv.pages.length := by
  simp [ParameterValues.take_i2c_changes, takeI2cPages_fst_length]

-- ── Single-slot update characterisation ──────────────────────────────

/-- The common shape of the success branches of `update_from_encoder` and
`update_from_i2c`: overwrite the slot at `(p, i)`, keep everything else. -/
def setSlotState (pv : ParameterValues) (p i : Nat) (s : ParameterSlot) :
    ParameterValues :=
  ParameterValues.mk
    (pv.pages.set p
      (Page.mk ((pv.pages.getD p Page.default).params.set i s)))
    pv.current_page

theorem setSlotState_current (pv : ParameterValues) (p i : Nat)
    (s : ParameterSlot) : (setSlotState pv p i s).current_page = pv.current_page := rfl

theorem setSlotState_pages_length (pv : ParameterValues) (p i : Nat)
    (s : ParameterSlot) : (setSlotState pv p i s).pages.length = pv.pages.length := by
  simp [setSlotState]

theorem setSlotState_params_length (pv : ParameterValues) (p i : Nat)
    (s : ParameterSlot) (a : Nat) :
    ((setSlotState pv p i s).pages.getD a Page.default).params.length =
      (pv.pages.getD a Page.default).params.length := by
  unfold setSlotState
  by_cases hp : p < pv.pages.length
  · by_cases hap : a = p
    · subst hap
      rw [show (ParameterValues.mk (pv.pages.set a _) pv.current_page).pages =
          pv.pages.set a _ from rfl, getD_set_self _ _ _ _ hp]
      simp
    · rw [show (ParameterValues.mk (pv.pages.set p _) pv.current_page).pages =
          pv.pages.set p _ from rfl, getD_set_ne _ _ _ _ _ (fun h => hap h.symm)]
  · rw [show (ParameterValues.mk (pv.pages.set p _) pv.current_page).pages =
        pv.pages.set p _ from rfl, List.set_eq_of_length_le (Nat.le_of_not_lt hp)]

theorem setSlotState_slotAt_self (pv : ParameterValues) (p i : Nat)
    (s : ParameterSlot)
    (hp : p < pv.pages.length)
    (hi : i < (pv.pages.getD p Page.default).params.length) :
    (setSlotState pv p i s).slotAt p i = s := by
  unfold setSlotState ParameterValues.slotAt
  rw [show (ParameterValues.mk (pv.pages.set p _) pv.current_page).pages =
      pv.pages.set p _ from rfl, getD_set_self _ _ _ _ hp]
  exact getD_set_self _ _ _ _ hi

theorem setSlotState_slotAt_frame (pv : ParameterValues) (p i : Nat)
    (s : ParameterSlot) (a b : Nat) (h : a ≠ p ∨ b ≠ i) :
    (setSlotState pv p i s).slotAt a b = pv.slotAt a b := by
  unfold setSlotState ParameterValues.slotAt
  rw [show (ParameterValues.mk (pv.pages.set p _) pv.current_page).pages =
      pv.pages.set p _ from rfl]
  rcases h with h | h
  · rw [getD_set_ne _ _ _ _ _ (fun hpa => h hpa.symm)]
  · by_cases hap : a = p
    · subst hap
      by_cases hp : a < pv.pages.length
      · rw [getD_set_self _ _ _ _ hp]
        exact getD_set_ne _ _ _ _ _ (fun hib => h hib.symm)
      · rw [List.set_eq_of_length_le (Nat.le_of_not_lt hp)]
    · rw [getD_set_ne _ _ _ _ _ (fun hpa => hap hpa.symm)]

-- ── update_from_encoder characterisation ─────────────────────────────

theorem update_from_encoder_cases (pv : ParameterValues) (i : Nat) (δ : Int) :
    pv.update_from_encoder i δ = pv ∨
    ∃ q, i < PARAMS_PER_PAGE ∧
      pv.slotAt pv.current_page i = ParameterSlot.Active q ∧
      pv.update_from_encoder i δ =
        setSlotState pv pv.current_page i
          (ParameterSlot.Active (q.set_value (q.value + δ))) := by
  unfold ParameterValues.update_from_encoder
  by_cases hge : i ≥ PARAMS_PER_PAGE
  · rw [if_pos hge]
    exact Or.inl rfl
  · rw [if_neg hge]
    dsimp only
    cases hslot : (pv.pages.getD pv.current_page Page.default).params.getD i
        ParameterSlot.Null with
    | Active q =>
      exact Or.inr ⟨q, Nat.lt_of_not_ge hge, hslot, rfl⟩
    | Null => exact Or.inl rfl

theorem update_from_encoder_current (pv : ParameterValues) (i : Nat) (δ : Int) :
    (pv.update_from_encoder i δ).current_page = pv.current_page := by
  rcases update_from_encoder_cases pv i δ with h | ⟨q, _, _, h⟩ <;> rw [h]
  rfl

-- ── update_from_i2c characterisation ─────────────────────────────────

theorem update_from_i2c_cases (pv : ParameterValues) (g : Nat) (v : Int) :
    (pv.update_from_i2c g v).1 = pv ∨
    ∃ q, g < TOTAL_SLOTS ∧
      pv.slotAt (g / PARAMS_PER_PAGE) (g % PARAMS_PER_PAGE) =
        ParameterSlot.Active q ∧
      (pv.update_from_i2c g v).1 =
        setSlotState pv (g / PARAMS_PER_PAGE) (g % PARAMS_PER_PAGE)
          (ParameterSlot.Active (q.set_value_from_i2c v)) := by
  unfold ParameterValues.update_from_i2c ParameterValues.global_to_page_encoder
  by_cases hge : g ≥ TOTAL_SLOTS
  · rw [if_pos hge]
    exact Or.inl rfl
  · rw [if_neg hge]
    dsimp only
    cases hslot : (pv.pages.getD (g / PARAMS_PER_PAGE) Page.default).params.getD
        (g % PARAMS_PER_PAGE) ParameterSlot.Null with
    | Active q =>
      exact Or.inr ⟨q, Nat.lt_of_not_ge hge, hslot, rfl⟩
    | Null => exact Or.inl rfl

theorem update_from_i2c_current (pv : ParameterValues) (g : Nat) (v : Int) :
    (pv.update_from_i2c g v).1.current_page = pv.current_page := by
  rcases update_from_i2c_cases pv g v with h | ⟨q, _, _, h⟩ <;> rw [h]
  rfl

-- ── Page navigation characterisation ─────────────────────────────────

theorem set_page_of_ge (pv : ParameterValues) (p : Nat) (h : p ≥ N_PAGES) :
    pv.set_page p = (pv, .error .InvalidPageIndex) := by
  unfold ParameterValues.set_page
  rw [if_pos h]

theorem set_page_of_lt (pv : ParameterValues) (p : Nat) (h : p < N_PAGES) :
    pv.set_page p = ({ pv with current_page := p }, .ok ()) := by
  unfold ParameterValues.set_page
  rw [if_neg (Nat.not_le.mpr h)]

theorem set_active_page_of_ge (pv : ParameterValues) (p : Nat)
    (h : p ≥ N_PAGES) :
    pv.set_active_page p = (pv, .error .InvalidPageIndex) := by
  unfold ParameterValues.set_active_page
  rw [if_pos h]

theorem set_active_page_snd_of_lt (pv : ParameterValues) (p : Nat)
    (h : p < N_PAGES) : (pv.set_active_page p).2 = .ok () := by
  unfold ParameterValues.set_active_page
  rw [if_neg (Nat.not_le.mpr h)]

theorem set_active_page_current_of_lt (pv : ParameterValues) (p : Nat)
    (h : p < N_PAGES) : (pv.set_active_page p).1.current_page = p := by
  unfold ParameterValues.set_active_page
  rw [if_neg (Nat.not_le.mpr h)]

theorem set_active_page_pages_length (pv : ParameterValues) (p : Nat) :
    (pv.set_active_page p).1.pages.length = pv.pages.length := by
  unfold ParameterValues.set_active_page
  by_cases h : p ≥ N_PAGES
  · rw [if_pos h]
  · rw [if_neg h]
    simp

theorem set_active_page_slotAt_self (pv : ParameterValues) (p : Nat)
    (h : p < N_PAGES) (hlen : p < pv.pages.length) (i : Nat) :
    (pv.set_active_page p).1.slotAt p i = markOled (pv.slotAt p i) := by
  unfold ParameterValues.set_active_page ParameterValues.slotAt
  rw [if_neg (Nat.not_le.mpr h)]
  show ((pv.pages.set p _).getD p Page.default).params.getD i _ = _
  rw [getD_set_self _ _ _ _ hlen]
  exact getD_map_nullfix markOled rfl _ i

theorem set_active_page_slotAt_other (pv : ParameterValues) (p : Nat)
    (h : p < N_PAGES) (a b : Nat) (ha : a ≠ p) :
    (pv.set_active_page p).1.slotAt a b = pv.slotAt a b := by
  unfold ParameterValues.set_active_page ParameterValues.slotAt
  rw [if_neg (Nat.not_le.mpr h)]
  show ((pv.pages.set p _).getD a Page.default).params.getD b _ = _
  rw [getD_set_ne _ _ _ _ _ (fun hpa => ha hpa.symm)]

theorem set_active_page_params_length (pv : ParameterValues) (p : Nat)
    (a : Nat) :
    ((pv.set_active_page p).1.pages.getD a Page.default).params.length =
      (pv.pages.getD a Page.default).params.length := by
  unfold ParameterValues.set_active_page
  by_cases h : p ≥ N_PAGES
  · rw [if_pos h]
  · rw [if_neg h]
    show ((pv.pages.set p _).getD a Page.default).params.length = _
    by_cases hp : p < pv.pages.length
    · by_cases hap : a = p
      · subst hap
        rw [getD_set_self _ _ _ _ hp]
        simp
      · rw [getD_set_ne _ _ _ _ _ (fun hpa => hap hpa.symm)]
    · rw [List.set_eq_of_length_le (Nat.le_of_not_lt hp)]

theorem take_oled_changes_fst_params_length (pv : ParameterValues) (a : Nat) :
    (pv.take_oled_changes.1.pages.getD a Page.default).params.length =
      (pv.pages.getD a Page.default).params.length := by
  simp only [ParameterValues.take_oled_changes]
  exact takeOledPages_getD_params_length pv.pages 0 a

theorem take_i2c_changes_fst_params_length (pv : ParameterValues) (a : Nat) :
    (pv.take_i2c_changes.1.pages.getD a Page.default).params.length =
      (pv.pages.getD a Page.default).params.length := by
  simp only [ParameterValues.take_i2c_changes]
  exact takeI2cPages_getD_params_length pv.pages 0 a

-- ── Out-of-range accesses yield Null / none ──────────────────────────

theorem slotAt_oob_slot (pv : ParameterValues) (p i : Nat)
    (h : (pv.pages.getD p Page.default).params.length ≤ i) :
    pv.slotAt p i = ParameterSlot.Null :=
  getD_oob _ _ _ h

theorem slotAt_oob_page (pv : ParameterValues) (p i : Nat)
    (h : pv.pages.length ≤ p) : pv.slotAt p i = ParameterSlot.Null := by
  unfold ParameterValues.slotAt
  rw [getD_oob _ _ _ h]
  exact default_params_getD i

theorem nameAt_oob_page (p i : Nat) (h : N_PAGES ≤ p) : nameAt p i = none := by
  unfold nameAt
  rw [getD_oob PARAM_NAMES p [] (show PARAM_NAMES.length ≤ p from h)]
  simp only [List.getD_nil]

theorem nameAt_oob_slot (p i : Nat) (hp : p < N_PAGES)
    (h : PARAMS_PER_PAGE ≤ i) : nameAt p i = none := by
  have hlen : (PARAM_NAMES.getD p []).length = PARAMS_PER_PAGE := by
    have hp4 : p < 4 := hp
    interval_cases p <;> rfl
  unfold nameAt
  exact getD_oob _ _ _ (hlen ▸ h)

-- ── Shape preservation ───────────────────────────────────────────────

theorem shape_setSlotState (pv : ParameterValues) (p i : Nat)
    (s : ParameterSlot) (h : Shape pv) : Shape (setSlotState pv p i s) := by
  obtain ⟨h1, h2, h3⟩ := h
  refine ⟨?_, ?_, ?_⟩
  · rw [setSlotState_pages_length]
    exact h1
  · rw [setSlotState_current]
    exact h2
  · intro a ha
    rw [setSlotState_params_length]
    exact h3 a ha

theorem shape_update_from_encoder (pv : ParameterValues) (i : Nat) (δ : Int)
    (h : Shape pv) : Shape (pv.update_from_encoder i δ) := by
  rcases update_from_encoder_cases pv i δ with he | ⟨q, _, _, he⟩
  · rw [he]
    exact h
  · rw [he]
    exact shape_setSlotState pv _ i _ h

theorem shape_update_from_i2c (pv : ParameterValues) (g : Nat) (v : Int)
    (h : Shape pv) : Shape (pv.update_from_i2c g v).1 := by
  rcases update_from_i2c_cases pv g v with he | ⟨q, _, _, he⟩
  · rw [he]
    exact h
  · rw [he]
    exact shape_setSlotState pv _ _ _ h

theorem shape_set_page (pv : ParameterValues) (p : Nat) (h : Shape pv) :
    Shape (pv.set_page p).1 := by
  by_cases hp : p ≥ N_PAGES
  · rw [set_page_of_ge pv p hp]
    exact h
  · rw [set_page_of_lt pv p (Nat.lt_of_not_ge hp)]
    exact ⟨h.1, Nat.lt_of_not_ge hp, h.2.2⟩

theorem shape_set_active_page (pv : ParameterValues) (p : Nat) (h : Shape pv) :
    Shape (pv.set_active_page p).1 := by
  by_cases hp : p ≥ N_PAGES
  · rw [set_active_page_of_ge pv p hp]
    exact h
  · refine ⟨?_, ?_, ?_⟩
    · rw [set_active_page_pages_length]
      exact h.1
    · rw [set_active_page_current_of_lt pv p (Nat.lt_of_not_ge hp)]
      exact Nat.lt_of_not_ge hp
    · intro a ha
      rw [set_active_page_params_length]
      exact h.2.2 a ha

theorem shape_take_oled (pv : ParameterValues) (h : Shape pv) :
    Shape pv.take_oled_changes.1 := by
  refine ⟨?_, ?_, ?_⟩
  · rw [take_oled_changes_fst_pages_length]
    exact h.1
  · rw [take_oled_changes_fst_current]
    exact h.2.1
  · intro a ha
    rw [take_oled_changes_fst_params_length]
    exact h.2.2 a ha

theorem shape_take_i2c (pv : ParameterValues) (h : Shape pv) :
    Shape pv.take_i2c_changes.1 := by
  refine ⟨?_, ?_, ?_⟩
  · rw [take_i2c_changes_fst_pages_length]
    exact h.1
  · rw [take_i2c_changes_fst_current]
    exact h.2.1
  · intro a ha
    rw [take_i2c_changes_fst_params_length]
    exact h.2.2 a ha

theorem shape_applyOp (pv : ParameterValues) (op : Op) (h : Shape pv) :
    Shape (applyOp pv op) := by
  cases op with
  | encoder s d => exact shape_update_from_encoder pv s d h
  | external g v => exact shape_update_from_i2c pv g v h
  | setPage p => exact shape_set_page pv p h
  | setActivePage p => exact shape_set_active_page pv p h
  | drainOled => exact shape_take_oled pv h
  | drainI2c => exact shape_take_i2c pv h

-- ── SlotStep for every public operation ──────────────────────────────

theorem slotStep_update_from_encoder (pv : ParameterValues) (i : Nat)
    (δ : Int) (h : Shape pv) (a b : Nat) :
    SlotStep (pv.slotAt a b) ((pv.update_from_encoder i δ).slotAt a b) := by
  rcases update_from_encoder_cases pv i δ with he | ⟨q, hi4, hq, he⟩
  · rw [he]
    exact slotStep_refl _
  · rw [he]
    by_cases hab : a = pv.current_page ∧ b = i
    · obtain ⟨ha, hb⟩ := hab
      have hcp : pv.current_page < pv.pages.length := by
        rw [h.1]
        exact h.2.1
      have hil : i < (pv.pages.getD pv.current_page Page.default).params.length := by
        rw [h.2.2 pv.current_page h.2.1]
        exact hi4
      rw [ha, hb, setSlotState_slotAt_self pv _ _ _ hcp hil, hq]
      exact slotStep_set_value q _
    · rw [setSlotState_slotAt_frame pv _ _ _ _ _ (not_and_or.mp hab)]
      exact slotStep_refl _

theorem slotStep_update_from_i2c (pv : ParameterValues) (g : Nat) (v : Int)
    (h : Shape pv) (a b : Nat) :
    SlotStep (pv.slotAt a b) ((pv.update_from_i2c g v).1.slotAt a b) := by
  rcases update_from_i2c_cases pv g v with he | ⟨q, hg, hq, he⟩
  · rw [he]
    exact slotStep_refl _
  · rw [he]
    by_cases hab : a = g / PARAMS_PER_PAGE ∧ b = g % PARAMS_PER_PAGE
    · obtain ⟨ha, hb⟩ := hab
      have hpN : g / PARAMS_PER_PAGE < N_PAGES := by
        have : g < TOTAL_SLOTS := hg
        unfold TOTAL_SLOTS PARAMS_PER_PAGE N_PAGES at *
        omega
      have hcp : g / PARAMS_PER_PAGE < pv.pages.length := by
        rw [h.1]
        exact hpN
      have hil : g % PARAMS_PER_PAGE <
          (pv.pages.getD (g / PARAMS_PER_PAGE) Page.default).params.length := by
        rw [h.2.2 _ hpN]
        unfold PARAMS_PER_PAGE
        omega
      rw [ha, hb, setSlotState_slotAt_self pv _ _ _ hcp hil, hq]
      exact slotStep_set_value_from_i2c q v
    · rw [setSlotState_slotAt_frame pv _ _ _ _ _ (not_and_or.mp hab)]
      exact slotStep_refl _

theorem set_page_fst_slotAt (pv : ParameterValues) (p a b : Nat) :
    (pv.set_page p).1.slotAt a b = pv.slotAt a b := by
  by_cases hp : p ≥ N_PAGES
  · rw [set_page_of_ge pv p hp]
  · rw [set_page_of_lt pv p (Nat.lt_of_not_ge hp)]
    rfl

theorem slotStep_set_active_page (pv : ParameterValues) (p : Nat)
    (a b : Nat) :
    SlotStep (pv.slotAt a b) ((pv.set_active_page p).1.slotAt a b) := by
  by_cases hp : p ≥ N_PAGES
  · rw [set_active_page_of_ge pv p hp]
    exact slotStep_refl _
  · by_cases hap : a = p
    · subst hap
      by_cases hlen : a < pv.pages.length
      · rw [set_active_page_slotAt_self pv a (Nat.lt_of_not_ge hp) hlen b]
        exact slotStep_markOled _
      · have h1 : (pv.set_active_page a).1.slotAt a b = ParameterSlot.Null := by
          apply slotAt_oob_page
          rw [set_active_page_pages_length]
          exact Nat.le_of_not_lt hlen
        have h2 : pv.slotAt a b = ParameterSlot.Null :=
          slotAt_oob_page pv a b (Nat.le_of_not_lt hlen)
        rw [h1, h2]
        exact slotStep_refl _
    · rw [set_active_page_slotAt_other pv p (Nat.lt_of_not_ge hp) a b hap]
      exact slotStep_refl _

theorem slotStep_applyOp (pv : ParameterValues) (op : Op) (h : Shape pv)
    (a b : Nat) :
    SlotStep (pv.slotAt a b) ((applyOp pv op).slotAt a b) := by
  cases op with
  | encoder s d => exact slotStep_update_from_encoder pv s d h a b
  | external g v => exact slotStep_update_from_i2c pv g v h a b
  | setPage p =>
    rw [show applyOp pv (Op.setPage p) = (pv.set_page p).1 from rfl,
      set_page_fst_slotAt]
    exact slotStep_refl _
  | setActivePage p => exact slotStep_set_active_page pv p a b
  | drainOled =>
    rw [show applyOp pv Op.drainOled = pv.take_oled_changes.1 from rfl,
      take_oled_changes_fst_slotAt]
    exact slotStep_clearOled _
  | drainI2c =>
    rw [show applyOp pv Op.drainI2c = pv.take_i2c_changes.1 from rfl,
      take_i2c_changes_fst_slotAt]
    exact slotStep_clearI2c _

-- ── The invariant holds in every reachable state ─────────────────────

theorem inv_applyOp (pv : ParameterValues) (op : Op) (h : Inv pv) :
    Inv (applyOp pv op) := by
  obtain ⟨hs, hl, hb⟩ := h
  refine ⟨shape_applyOp pv op hs, ?_, ?_⟩
  · intro p i
    rw [(slotStep_applyOp pv op hs p i).1, hl p i]
  · intro p i q hq
    obtain ⟨q0, hq0, _, _, hr⟩ := (slotStep_applyOp pv op hs p i).2 q hq
    exact hr (hb p i q0 hq0)

theorem inv_new : Inv ParameterValues.new := by
  have key : ∀ p, p < N_PAGES → ∀ i, i < PARAMS_PER_PAGE →
      (ParameterValues.new.slotAt p i = ParameterSlot.Null ∨
        ParameterValues.new.slotAt p i =
          ParameterSlot.Active Parameter.default) := by decide
  have key2 : ∀ p, p < N_PAGES → ∀ i, i < PARAMS_PER_PAGE →
      (ParameterValues.new.slotAt p i).is_active = (nameAt p i).isSome := by
    decide
  have hsh : Shape ParameterValues.new := by decide
  refine ⟨hsh, ?_, ?_⟩
  · intro p i
    rcases Nat.lt_or_ge p N_PAGES with hp | hp
    · rcases Nat.lt_or_ge i PARAMS_PER_PAGE with hi | hi
      · exact key2 p hp i hi
      · rw [slotAt_oob_slot _ _ _ (le_of_eq_of_le (hsh.2.2 p hp) hi),
          nameAt_oob_slot p i hp hi]
        rfl
    · rw [slotAt_oob_page _ _ _ (le_of_eq_of_le hsh.1 hp),
        nameAt_oob_page p i hp]
      rfl
  · intro p i q hq
    rcases Nat.lt_or_ge p N_PAGES with hp | hp
    · rcases Nat.lt_or_ge i PARAMS_PER_PAGE with hi | hi
      · rcases key p hp i hi with h | h
        · rw [h] at hq
          cases hq
        · rw [h] at hq
          cases hq
          unfold ParamInRange
          refine ⟨by decide, by decide⟩
      · rw [slotAt_oob_slot _ _ _ (le_of_eq_of_le (hsh.2.2 p hp) hi)] at hq
        cases hq
    · rw [slotAt_oob_page _ _ _ (le_of_eq_of_le hsh.1 hp)] at hq
      cases hq

theorem inv_foldl : ∀ (l : List Op) (pv : ParameterValues), Inv pv →
    Inv (l.foldl applyOp pv)
  | [], _, h => h
  | op :: l, pv, h => inv_foldl l _ (inv_applyOp pv op h)

theorem inv_reachable (pv : ParameterValues) (h : Reachable pv) : Inv pv := by
  obtain ⟨ops, rfl⟩ := h
  exact inv_foldl ops ParameterValues.new inv_new

-- ── Success-branch characterisations ─────────────────────────────────

theorem rustClamp_id (v lo hi : Int) (h1 : lo ≤ v) (h2 : v ≤ hi) :
    rustClamp v lo hi = v := by
  unfold rustClamp
  split_ifs <;> omega

theorem update_from_encoder_of_active (pv : ParameterValues) (i : Nat)
    (δ : Int) (q : Parameter) (hi : i < PARAMS_PER_PAGE)
    (hq : pv.slotAt pv.current_page i = ParameterSlot.Active q) :
    pv.update_from_encoder i δ =
      setSlotState pv pv.current_page i
        (ParameterSlot.Active (q.set_value (q.value + δ))) := by
  unfold ParameterValues.slotAt at hq
  unfold ParameterValues.update_from_encoder
  rw [if_neg (Nat.not_le.mpr hi)]
  dsimp only
  rw [hq]
  rfl

theorem update_from_i2c_fst_of_active (pv : ParameterValues) (g : Nat)
    (v : Int) (q : Parameter) (hg : g < TOTAL_SLOTS)
    (hq : pv.slotAt (g / PARAMS_PER_PAGE) (g % PARAMS_PER_PAGE) =
      ParameterSlot.Active q) :
    (pv.update_from_i2c g v).1 =
      setSlotState pv (g / PARAMS_PER_PAGE) (g % PARAMS_PER_PAGE)
        (ParameterSlot.Active (q.set_value_from_i2c v)) := by
  unfold ParameterValues.slotAt at hq
  unfold ParameterValues.update_from_i2c ParameterValues.global_to_page_encoder
  rw [if_neg (Nat.not_le.mpr hg)]
  dsimp only
  rw [hq]
  rfl

theorem update_from_i2c_snd_of_ge (pv : ParameterValues) (g : Nat) (v : Int)
    (hg : g ≥ TOTAL_SLOTS) :
    (pv.update_from_i2c g v).2 =
      Except.error ParameterError.InvalidGlobalIndex := by
  unfold ParameterValues.update_from_i2c ParameterValues.global_to_page_encoder
  rw [if_pos hg]

theorem update_from_i2c_snd_of_active (pv : ParameterValues) (g : Nat)
    (v : Int) (q : Parameter) (hg : g < TOTAL_SLOTS)
    (hq : pv.slotAt (g / PARAMS_PER_PAGE) (g % PARAMS_PER_PAGE) =
      ParameterSlot.Active q) :
    (pv.update_from_i2c g v).2 = Except.ok () := by
  unfold ParameterValues.slotAt at hq
  unfold ParameterValues.update_from_i2c ParameterValues.global_to_page_encoder
  rw [if_neg (Nat.not_le.mpr hg)]
  dsimp only
  rw [hq]

theorem update_from_i2c_snd_of_null (pv : ParameterValues) (g : Nat)
    (v : Int) (hg : g < TOTAL_SLOTS)
    (hq : pv.slotAt (g / PARAMS_PER_PAGE) (g % PARAMS_PER_PAGE) =
      ParameterSlot.Null) :
    (pv.update_from_i2c g v).2 = Except.error ParameterError.NullSlot := by
  unfold ParameterValues.slotAt at hq
  unfold ParameterValues.update_from_i2c ParameterValues.global_to_page_encoder
  rw [if_neg (Nat.not_le.mpr hg)]
  dsimp only
  rw [hq]

-- ── Reconcile-step characterisation ──────────────────────────────────

theorem clearFlagged_getD :
    ∀ (fs : List Bool) (ss : List ParameterSlot) (b : Nat),
      (clearFlagged fs ss).getD b ParameterSlot.Null =
        if fs.getD b false then clearOledSlot (ss.getD b ParameterSlot.Null)
        else ss.getD b ParameterSlot.Null
  | [], ss, b => by simp [clearFlagged]
  | f :: fs, [], b => by
    cases f <;> cases b <;> simp [clearFlagged, clearOledSlot]
  | f :: fs, s :: ss, 0 => by
    cases f <;> cases s <;> simp [clearFlagged, clearOledSlot]
  | f :: fs, s :: ss, b + 1 => by
    simpa [clearFlagged] using clearFlagged_getD fs ss b

theorem reconcileOled_slotAt_current (pv : ParameterValues)
    (flags : List Bool) (i : Nat)
    (hcp : pv.current_page < pv.pages.length) :
    (reconcileOled pv flags).slotAt pv.current_page i =
      if flags.getD i false then
        clearOledSlot (pv.slotAt pv.current_page i)
      else pv.slotAt pv.current_page i := by
  unfold reconcileOled ParameterValues.slotAt
  dsimp only
  rw [getD_set_self _ _ _ _ hcp]
  exact clearFlagged_getD flags _ i

-- ── Claim theorems ───────────────────────────────────────────────────

/-- C1 (counterexample): the claimed snapshot-race scenario fails on the
code. Start from the fresh store, make parameter A = (page 0, slot 0)
render-dirty with an encoder write; the step-1 snapshot records A as dirty
(`[true, false, false, false]`); a second encoder write to A before the
step-6 reconcile leaves `changed_oled = true`; yet after the reconcile A's
`changed_oled` is `false`, not `true` as the claim demands — the reconcile
clears every slot whose snapshot flag was set, including one re-dirtied
after the snapshot. -/
theorem c1_snapshot_race_counterexample :
    snapshotFlags (ParameterValues.new.update_from_encoder 0 5) =
        [true, false, false, false] ∧
      oledFlagAt
        ((ParameterValues.new.update_from_encoder 0 5).update_from_encoder 0 3)
        0 0 = some true ∧
      oledFlagAt
        (reconcileOled
          ((ParameterValues.new.update_from_encoder 0 5).update_from_encoder 0 3)
          (snapshotFlags (ParameterValues.new.update_from_encoder 0 5)))
        0 0 = some false :=
  ⟨rfl, rfl, rfl⟩

/-- C1 (amended): the reconcile step clears `changed_oled` exactly on the
slots whose step-1 snapshot flag was `true`; therefore an encoder write
arriving after the snapshot survives the reconcile precisely when the
written parameter was recorded **clean** (`false`) in the snapshot. For a
parameter already dirty at the snapshot, the reconcile clears the flag
even if a new write arrived in between (the counterexample above). -/
theorem c1_snapshot_race_amended (pv : ParameterValues) (i : Nat) (δ : Int)
    (q : Parameter) (hs : Shape pv) (hi : i < PARAMS_PER_PAGE)
    (hq : pv.slotAt pv.current_page i = ParameterSlot.Active q)
    (hsnap : (snapshotFlags pv).getD i false = false) :
    oledFlagAt
      (reconcileOled (pv.update_from_encoder i δ) (snapshotFlags pv))
      pv.current_page i = some true := by
  have hcp : pv.current_page < pv.pages.length := by
    rw [hs.1]
    exact hs.2.1
  have hil : i < (pv.pages.getD pv.current_page Page.default).params.length := by
    rw [hs.2.2 pv.current_page hs.2.1]
    exact hi
  have hup := update_from_encoder_of_active pv i δ q hi hq
  have hs' : Shape (pv.update_from_encoder i δ) :=
    shape_update_from_encoder pv i δ hs
  have hcur := update_from_encoder_current pv i δ
  have hcp' : (pv.update_from_encoder i δ).current_page <
      (pv.update_from_encoder i δ).pages.length := by
    rw [hs'.1]
    exact hs'.2.1
  unfold oledFlagAt
  rw [show pv.current_page = (pv.update_from_encoder i δ).current_page
      from hcur.symm,
    reconcileOled_slotAt_current _ (snapshotFlags pv) i hcp', hsnap]
  simp only [Bool.false_eq_true, if_false]
  rw [hcur, hup, setSlotState_slotAt_self pv _ _ _ hcp hil]
  rfl

/-- Witness for the amended C1 theorem at a concrete input: the fresh
store, whose slot (0, 0) is clean in the snapshot. -/
theorem c1_snapshot_race_amended_witness :
    oledFlagAt
      (reconcileOled (ParameterValues.new.update_from_encoder 0 7)
        (snapshotFlags ParameterValues.new))
      ParameterValues.new.current_page 0 = some true :=
  c1_snapshot_race_amended ParameterValues.new 0 7 Parameter.default
    (by decide) (by decide) (by decide) (by decide)

/-- C2: clamp invariant. In every store state reachable from
`ParameterValues::new()` by public operations, every active parameter's
value satisfies `min_value ≤ value ≤ max_value`. -/
theorem c2_clamp_invariant (pv : ParameterValues) (h : Reachable pv) :
    ∀ p i q, pv.slotAt p i = ParameterSlot.Active q →
      q.min_value ≤ q.value ∧ q.value ≤ q.max_value := by
  intro p i q hq
  exact (inv_reachable pv h).2.2 p i q hq

/-- Witness for C2 at a concrete input: an encoder write of +200 from the
fresh store is clamped to the maximum 127, still inside the range. -/
theorem c2_clamp_invariant_witness :
    (⟨127, 0, 127, true, true⟩ : Parameter).min_value ≤
        (⟨127, 0, 127, true, true⟩ : Parameter).value ∧
      (⟨127, 0, 127, true, true⟩ : Parameter).value ≤
        (⟨127, 0, 127, true, true⟩ : Parameter).max_value :=
  c2_clamp_invariant (runOps [Op.encoder 0 200]) ⟨[Op.encoder 0 200], rfl⟩
    0 0 ⟨127, 0, 127, true, true⟩ (by decide)

/-- C3: flag independence (anti-echo). A successful external write leaves
`changed_i2c` exactly as it was and sets `changed_oled`; an encoder write
to an in-range active slot of the current page sets both flags. -/
theorem c3_flag_independence (pv : ParameterValues) (hs : Shape pv) :
    (∀ g v q, g < TOTAL_SLOTS →
      pv.slotAt (g / PARAMS_PER_PAGE) (g % PARAMS_PER_PAGE) =
        ParameterSlot.Active q →
      (pv.update_from_i2c g v).2 = Except.ok () ∧
      (pv.update_from_i2c g v).1.slotAt (g / PARAMS_PER_PAGE)
          (g % PARAMS_PER_PAGE) =
        ParameterSlot.Active (q.set_value_from_i2c v) ∧
      (q.set_value_from_i2c v).changed_i2c = q.changed_i2c ∧
      (q.set_value_from_i2c v).changed_oled = true) ∧
    (∀ i δ q, i < PARAMS_PER_PAGE →
      pv.slotAt pv.current_page i = ParameterSlot.Active q →
      (pv.update_from_encoder i δ).slotAt pv.current_page i =
        ParameterSlot.Active (q.set_value (q.value + δ)) ∧
      (q.set_value (q.value + δ)).changed_oled = true ∧
      (q.set_value (q.value + δ)).changed_i2c = true) := by
  constructor
  · intro g v q hg hq
    have hpN : g / PARAMS_PER_PAGE < N_PAGES := by
      have hg2 : g < TOTAL_SLOTS := hg
      unfold TOTAL_SLOTS PARAMS_PER_PAGE N_PAGES at *
      omega
    have hcp : g / PARAMS_PER_PAGE < pv.pages.length := by
      rw [hs.1]
      exact hpN
    have hil : g % PARAMS_PER_PAGE <
        (pv.pages.getD (g / PARAMS_PER_PAGE) Page.default).params.length := by
      rw [hs.2.2 _ hpN]
      unfold PARAMS_PER_PAGE
      omega
    refine ⟨update_from_i2c_snd_of_active pv g v q hg hq, ?_, rfl, rfl⟩
    rw [update_from_i2c_fst_of_active pv g v q hg hq]
    exact setSlotState_slotAt_self pv _ _ _ hcp hil
  · intro i δ q hi hq
    have hcp : pv.current_page < pv.pages.length := by
      rw [hs.1]
      exact hs.2.1
    have hil : i <
        (pv.pages.getD pv.current_page Page.default).params.length := by
      rw [hs.2.2 pv.current_page hs.2.1]
      exact hi
    refine ⟨?_, rfl, rfl⟩
    rw [update_from_encoder_of_active pv i δ q hi hq]
    exact setSlotState_slotAt_self pv _ _ _ hcp hil

/-- Witness for C3 at a concrete input: external write of 55 to global
index 0 of the fresh store succeeds. -/
theorem c3_flag_independence_witness :
    (ParameterValues.new.update_from_i2c 0 55).2 = Except.ok () :=
  ((c3_flag_independence ParameterValues.new (by decide)).1 0 55
    Parameter.default (by decide) (by decide)).1

/-- C4: end-to-end change-feed scenario with drain idempotence. From the
fresh store on page 0, after `update_from_encoder(0, 10)`:
`take_oled_changes` returns exactly one entry (name "Cutoff", value 10,
page 0, encoder 0); `take_i2c_changes` run afterwards returns one matching
entry; a further `take_oled_changes` returns nothing; and two consecutive
`take_oled_changes` with no intervening write also end empty. -/
theorem c4_end_to_end_change_feed :
    (ParameterValues.new.update_from_encoder 0 10).take_oled_changes.2 =
        [{ name := "Cutoff", value := 10, page := 0, encoder := 0 }] ∧
      (ParameterValues.new.update_from_encoder 0
          10).take_oled_changes.1.take_i2c_changes.2 =
        [{ name := "Cutoff", value := 10, page := 0, encoder := 0 }] ∧
      (ParameterValues.new.update_from_encoder 0
          10).take_oled_changes.1.take_i2c_changes.1.take_oled_changes.2 =
        [] ∧
      (ParameterValues.new.update_from_encoder 0
          10).take_oled_changes.1.take_oled_changes.2 = [] :=
  ⟨rfl, rfl, rfl, rfl⟩

/-- C5: cross-flag isolation and drain frame condition. For every store,
`take_oled_changes` leaves the page cursor, the page count, every value,
every range, every `changed_i2c` flag and the Active/Null layout unchanged,
and merely clears `changed_oled` (an identity on parameters whose flag was
already clear — so only the returned, dirty parameters change);
symmetrically `take_i2c_changes` clears only `changed_i2c` and never
touches `changed_oled`. -/
theorem c5_cross_flag_isolation (pv : ParameterValues) :
    (pv.take_oled_changes.1.current_page = pv.current_page ∧
      pv.take_oled_changes.1.pages.length = pv.pages.length ∧
      ∀ p i, pv.take_oled_changes.1.slotAt p i =
        clearOledSlot (pv.slotAt p i)) ∧
    (pv.take_i2c_changes.1.current_page = pv.current_page ∧
      pv.take_i2c_changes.1.pages.length = pv.pages.length ∧
      ∀ p i, pv.take_i2c_changes.1.slotAt p i =
        clearI2cSlot (pv.slotAt p i)) :=
  ⟨⟨take_oled_changes_fst_current pv, take_oled_changes_fst_pages_length pv,
      fun p i => take_oled_changes_fst_slotAt pv p i⟩,
    ⟨take_i2c_changes_fst_current pv, take_i2c_changes_fst_pages_length pv,
      fun p i => take_i2c_changes_fst_slotAt pv p i⟩⟩

/-- C6: page-navigation contract. Both `set_page` and `set_active_page`
fail with `InvalidPageIndex` exactly when `p ≥ N_PAGES` and leave the
store untouched on failure. On success `set_page` only moves the cursor
(pages, hence all dirty flags, unchanged); `set_active_page` moves the
cursor and additionally sets `changed_oled := true` on every active slot
of page `p` (leaving value, range and `changed_i2c` as they were), keeps
Null slots Null, and leaves every other page unchanged. -/
theorem c6_page_navigation (pv : ParameterValues) (p : Nat) (hs : Shape pv) :
    (p ≥ N_PAGES →
      pv.set_page p = (pv, Except.error ParameterError.InvalidPageIndex) ∧
      pv.set_active_page p =
        (pv, Except.error ParameterError.InvalidPageIndex)) ∧
    (p < N_PAGES →
      (pv.set_page p).2 = Except.ok () ∧
      (pv.set_page p).1.current_page = p ∧
      (pv.set_page p).1.pages = pv.pages ∧
      (pv.set_active_page p).2 = Except.ok () ∧
      (pv.set_active_page p).1.current_page = p ∧
      (∀ i q, pv.slotAt p i = ParameterSlot.Active q →
        (pv.set_active_page p).1.slotAt p i =
          ParameterSlot.Active { q with changed_oled := true }) ∧
      (∀ i, pv.slotAt p i = ParameterSlot.Null →
        (pv.set_active_page p).1.slotAt p i = ParameterSlot.Null) ∧
      (∀ a b, a ≠ p →
        (pv.set_active_page p).1.slotAt a b = pv.slotAt a b)) := by
  constructor
  · intro hp
    exact ⟨set_page_of_ge pv p hp, set_active_page_of_ge pv p hp⟩
  · intro hp
    have hlen : p < pv.pages.length := by
      rw [hs.1]
      exact hp
    refine ⟨?_, ?_, ?_, set_active_page_snd_of_lt pv p hp,
      set_active_page_current_of_lt pv p hp, ?_, ?_, ?_⟩
    · rw [set_page_of_lt pv p hp]
    · rw [set_page_of_lt pv p hp]
    · rw [set_page_of_lt pv p hp]
    · intro i q hq
      rw [set_active_page_slotAt_self pv p hp hlen i, hq]
      rfl
    · intro i hq
      rw [set_active_page_slotAt_self pv p hp hlen i, hq]
      rfl
    · intro a b ha
      exact set_active_page_slotAt_other pv p hp a b ha

/-- Witness for C6 at a concrete input: page index 4 is rejected on the
fresh store, which is left unchanged. -/
theorem c6_page_navigation_witness :
    ParameterValues.new.set_page 4 =
      (ParameterValues.new, Except.error ParameterError.InvalidPageIndex) :=
  ((c6_page_navigation ParameterValues.new 4 (by decide)).1 (by decide)).1

/-- C7: encoder silent no-op. For every store state, delta and slot index,
if the index is out of range or the targeted slot on the current page is
Null, `update_from_encoder` returns no error (it returns nothing) and the
whole store — every value, both flags on every parameter, the cursor — is
literally unchanged. -/
theorem c7_encoder_silent_noop (pv : ParameterValues) (i : Nat) (δ : Int)
    (h : i ≥ PARAMS_PER_PAGE ∨
      pv.slotAt pv.current_page i = ParameterSlot.Null) :
    pv.update_from_encoder i δ = pv := by
  rcases update_from_encoder_cases pv i δ with he | ⟨q, hi4, hq, _⟩
  · exact he
  · rcases h with h | h
    · exact absurd hi4 (Nat.not_lt.mpr h)
    · rw [h] at hq
      cases hq

/-- Witness for C7 at a concrete input: on page 2 of the fresh store,
slot 3 is Null, and an encoder delta of 99 changes nothing. -/
theorem c7_encoder_silent_noop_witness :
    (runOps [Op.setPage 2]).update_from_encoder 3 99 = runOps [Op.setPage 2] :=
  c7_encoder_silent_noop (runOps [Op.setPage 2]) 3 99 (Or.inr (by decide))

/-- C8: external-write error contract and global-index decoding.
`update_from_i2c` fails with `InvalidGlobalIndex` exactly when
`g ≥ N_PAGES * PARAMS_PER_PAGE`; an in-range `g` decodes to
`(g / PARAMS_PER_PAGE, g % PARAMS_PER_PAGE)`, which re-encodes to `g`;
the call fails with `NullSlot` exactly when that slot is Null, and
succeeds otherwise. -/
theorem c8_external_write_contract (pv : ParameterValues) (g : Nat)
    (v : Int) :
    ((pv.update_from_i2c g v).2 =
        Except.error ParameterError.InvalidGlobalIndex ↔ g ≥ TOTAL_SLOTS) ∧
    (g < TOTAL_SLOTS →
      ParameterValues.global_to_page_encoder g =
        Except.ok (g / PARAMS_PER_PAGE, g % PARAMS_PER_PAGE) ∧
      (g / PARAMS_PER_PAGE) * PARAMS_PER_PAGE + g % PARAMS_PER_PAGE = g ∧
      ((pv.update_from_i2c g v).2 = Except.error ParameterError.NullSlot ↔
        pv.slotAt (g / PARAMS_PER_PAGE) (g % PARAMS_PER_PAGE) =
          ParameterSlot.Null) ∧
      (pv.slotAt (g / PARAMS_PER_PAGE) (g % PARAMS_PER_PAGE) ≠
          ParameterSlot.Null →
        (pv.update_from_i2c g v).2 = Except.ok ())) := by
  by_cases hg : g ≥ TOTAL_SLOTS
  · refine ⟨⟨fun _ => hg, fun _ => update_from_i2c_snd_of_ge pv g v hg⟩, ?_⟩
    intro hlt
    exact absurd hlt (Nat.not_lt.mpr hg)
  · have hlt : g < TOTAL_SLOTS := Nat.lt_of_not_ge hg
    constructor
    · constructor
      · intro herr
        cases hslot : pv.slotAt (g / PARAMS_PER_PAGE) (g % PARAMS_PER_PAGE) with
        | Active q =>
          rw [update_from_i2c_snd_of_active pv g v q hlt hslot] at herr
          cases herr
        | Null =>
          rw [update_from_i2c_snd_of_null pv g v hlt hslot] at herr
          cases herr
      · intro h
        exact absurd h hg
    · intro _
      refine ⟨?_, ?_, ?_, ?_⟩
      · unfold ParameterValues.global_to_page_encoder
        rw [if_neg hg]
      · unfold PARAMS_PER_PAGE
        omega
      · constructor
        · intro herr
          cases hslot : pv.slotAt (g / PARAMS_PER_PAGE)
              (g % PARAMS_PER_PAGE) with
          | Active q =>
            rw [update_from_i2c_snd_of_active pv g v q hlt hslot] at herr
            cases herr
          | Null => rfl
        · intro hnull
          exact update_from_i2c_snd_of_null pv g v hlt hnull
      · intro hne
        cases hslot : pv.slotAt (g / PARAMS_PER_PAGE)
            (g % PARAMS_PER_PAGE) with
        | Active q => exact update_from_i2c_snd_of_active pv g v q hlt hslot
        | Null => exact absurd hslot hne

/-- Witness for C8 at a concrete input: global index 11 decodes to
(page 2, slot 3), which is Null, so the call fails with `NullSlot`. -/
theorem c8_external_write_contract_witness :
    (ParameterValues.new.update_from_i2c 11 50).2 =
      Except.error ParameterError.NullSlot :=
  ((c8_external_write_contract ParameterValues.new 11 50).2
    (by decide)).2.2.1.mpr (by decide)

/-- C9: layout invariant. In every reachable store state, a slot is Active
exactly when the corresponding `PARAM_NAMES` entry is `Some` (hence Null
exactly when it is `None`), so the name lookup performed for every drained
Active slot inside `take_oled_changes` / `take_i2c_changes` can never hit
a missing name. -/
theorem c9_layout_invariant (pv : ParameterValues) (h : Reachable pv) :
    (∀ p i, (pv.slotAt p i).is_active = (nameAt p i).isSome) ∧
    (∀ p i q, pv.slotAt p i = ParameterSlot.Active q →
      (nameAt p i).isSome = true) := by
  have hinv := inv_reachable pv h
  refine ⟨hinv.2.1, fun p i q hq => ?_⟩
  rw [← hinv.2.1 p i, hq]
  rfl

/-- Witness for C9 at a concrete input: the fresh store, where slot
(2, 3) is Null and `PARAM_NAMES[2][3]` is `None`. -/
theorem c9_layout_invariant_witness :
    (ParameterValues.new.slotAt 2 3).is_active = (nameAt 2 3).isSome :=
  (c9_layout_invariant ParameterValues.new ⟨[], rfl⟩).1 2 3

/-- C10: zero-delta encoder writes are not no-ops at the store interface.
`update_from_encoder(i, 0)` on an in-range active slot leaves the value
unchanged but still sets both `changed_oled` and `changed_i2c`; it is the
encoder task (its `delta != 0` filter, subsumed by the all-zero batch
skip) that keeps zero deltas from ever reaching the store. -/
theorem c10_zero_delta_not_noop (pv : ParameterValues) (i : Nat)
    (q : Parameter) (hs : Shape pv) (hi : i < PARAMS_PER_PAGE)
    (hq : pv.slotAt pv.current_page i = ParameterSlot.Active q)
    (hr : q.min_value ≤ q.value ∧ q.value ≤ q.max_value) :
    (pv.update_from_encoder i 0).slotAt pv.current_page i =
        ParameterSlot.Active
          { q with changed_oled := true, changed_i2c := true } ∧
      encoderApplyDeltas pv (List.replicate PARAMS_PER_PAGE 0) = pv := by
  constructor
  · have hcp : pv.current_page < pv.pages.length := by
      rw [hs.1]
      exact hs.2.1
    have hil : i <
        (pv.pages.getD pv.current_page Page.default).params.length := by
      rw [hs.2.2 pv.current_page hs.2.1]
      exact hi
    rw [update_from_encoder_of_active pv i 0 q hi hq,
      setSlotState_slotAt_self pv _ _ _ hcp hil]
    unfold Parameter.set_value
    rw [add_zero, rustClamp_id q.value q.min_value q.max_value hr.1 hr.2]
  · rfl

/-- Witness for C10 at a concrete input: slot (0, 0) of the fresh store. -/
theorem c10_zero_delta_not_noop_witness :
    (ParameterValues.new.update_from_encoder 0 0).slotAt 0 0 =
        ParameterSlot.Active ⟨0, 0, 127, true, true⟩ ∧
      encoderApplyDeltas ParameterValues.new
        (List.replicate PARAMS_PER_PAGE 0) = ParameterValues.new :=
  c10_zero_delta_not_noop ParameterValues.new 0 Parameter.default
    (by decide) (by decide) (by decide) (by decide)

end Spirant
